import Mathlib

/-!
Verification model of `recipes/cad1/task1/baseline/evaluate.py` (Clarity CAD1
task1 baseline evaluation script).  Python integers are modelled as `Nat`/`Int`
(with explicit `% 2^32` where MD5's 32-bit arithmetic overflows), Python floats
as exact rationals `ℚ`, numpy arrays as lists, and the evaluation driver as a
pure function that returns a trace of observable events together with either a
result or the Python exception it raises.
-/

/-! ### MD5 (model of Python `hashlib.md5(...).hexdigest()` / `int(_, 16)`) -/

def M32 : Nat := 4294967296

def add32 (a b : Nat) : Nat := (a + b) % M32

def not32 (a : Nat) : Nat := 4294967295 - a % M32

def rotl32 (x n : Nat) : Nat :=
  (((x % M32) <<< n) % M32) ||| ((x % M32) >>> (32 - n))

def md5S : List Nat :=
  [7, 12, 17, 22, 7, 12, 17, 22, 7, 12, 17, 22, 7, 12, 17, 22,
   5, 9, 14, 20, 5, 9, 14, 20, 5, 9, 14, 20, 5, 9, 14, 20,
   4, 11, 16, 23, 4, 11, 16, 23, 4, 11, 16, 23, 4, 11, 16, 23,
   6, 10, 15, 21, 6, 10, 15, 21, 6, 10, 15, 21, 6, 10, 15, 21]

def md5K : List Nat :=
  [0xd76aa478, 0xe8c7b756, 0x242070db, 0xc1bdceee,
   0xf57c0faf, 0x4787c62a, 0xa8304613, 0xfd469501,
   0x698098d8, 0x8b44f7af, 0xffff5bb1, 0x895cd7be,
   0x6b901122, 0xfd987193, 0xa679438e, 0x49b40821,
   0xf61e2562, 0xc040b340, 0x265e5a51, 0xe9b6c7aa,
   0xd62f105d, 0x02441453, 0xd8a1e681, 0xe7d3fbc8,
   0x21e1cde6, 0xc33707d6, 0xf4d50d87, 0x455a14ed,
   0xa9e3e905, 0xfcefa3f8, 0x676f02d9, 0x8d2a4c8a,
   0xfffa3942, 0x8771f681, 0x6d9d6122, 0xfde5380c,
   0xa4beea44, 0x4bdecfa9, 0xf6bb4b60, 0xbebfbc70,
   0x289b7ec6, 0xeaa127fa, 0xd4ef3085, 0x04881d05,
   0xd9d4d039, 0xe6db99e5, 0x1fa27cf8, 0xc4ac5665,
   0xf4292244, 0x432aff97, 0xab9423a7, 0xfc93a039,
   0x655b59c3, 0x8f0ccc92, 0xffeff47d, 0x85845dd1,
   0x6fa87e4f, 0xfe2ce6e0, 0xa3014314, 0x4e0811a1,
   0xf7537e82, 0xbd3af235, 0x2ad7d2bb, 0xeb86d391]

def bytesToWords : List Nat → List Nat
  | b0 :: b1 :: b2 :: b3 :: rest =>
      (b0 + 256 * b1 + 65536 * b2 + 16777216 * b3) :: bytesToWords rest
  | _ => []

structure MD5State where
  a : Nat
  b : Nat
  c : Nat
  d : Nat

def md5Round (M : List Nat) (st : MD5State) (i : Nat) : MD5State :=
  let F :=
    if i < 16 then (st.b &&& st.c) ||| (not32 st.b &&& st.d)
    else if i < 32 then (st.d &&& st.b) ||| (not32 st.d &&& st.c)
    else if i < 48 then st.b ^^^ st.c ^^^ st.d
    else st.c ^^^ (st.b ||| not32 st.d)
  let g :=
    if i < 16 then i
    else if i < 32 then (5 * i + 1) % 16
    else if i < 48 then (3 * i + 5) % 16
    else (7 * i) % 16
  let tmp := (F + st.a + md5K.getD i 0 + M.getD g 0) % M32
  ⟨st.d, add32 st.b (rotl32 tmp (md5S.getD i 0)), st.b, st.c⟩

def md5Block (st : MD5State) (blockBytes : List Nat) : MD5State :=
  let M := bytesToWords blockBytes
  let r := (List.range 64).foldl (md5Round M) st
  ⟨add32 st.a r.a, add32 st.b r.b, add32 st.c r.c, add32 st.d r.d⟩

def md5Pad (msg : List Nat) : List Nat :=
  let len := msg.length
  let zeros := (56 + 64 - (len + 1) % 64) % 64
  let bitLen := (8 * len) % (M32 * M32)
  msg ++ [128] ++ List.replicate zeros 0 ++
    (List.range 8).map (fun j => (bitLen >>> (8 * j)) % 256)

def leBytes (x : Nat) : List Nat :=
  [x % 256, x / 256 % 256, x / 65536 % 256, x / 16777216 % 256]

def md5Digest (msg : List Nat) : List Nat :=
  let padded := md5Pad msg
  let n := padded.length / 64
  let st := (List.range n).foldl
    (fun st i => md5Block st ((padded.drop (64 * i)).take 64))
    ⟨0x67452301, 0xefcdab89, 0x98badcfe, 0x10325476⟩
  leBytes st.a ++ leBytes st.b ++ leBytes st.c ++ leBytes st.d

def md5Int (msg : List Nat) : Nat :=
  (md5Digest msg).foldl (fun acc b => 256 * acc + b) 0

/-! ### UTF-8 encoding (model of Python `str.encode("utf-8")`) -/

def utf8Char (n : Nat) : List Nat :=
  if n < 128 then [n]
  else if n < 2048 then [192 + n / 64, 128 + n % 64]
  else if n < 65536 then [224 + n / 4096, 128 + n / 64 % 64, 128 + n % 64]
  else [240 + n / 262144, 128 + n / 4096 % 64, 128 + n / 64 % 64, 128 + n % 64]

def utf8Encode (s : String) : List Nat :=
  s.data.foldr (fun c acc => utf8Char c.toNat ++ acc) []

/-- Model of `set_song_seed`: the integer seed passed to `np.random.seed`,
namely `int(hashlib.md5(song.encode("utf-8")).hexdigest(), 16) % 10**8`. -/
def set_song_seed (song : String) : Nat :=
  md5Int (utf8Encode song) % 10 ^ 8

/-! ### Audiogram filtering (model of `compute_haaqi`, lines 104-111) -/

def haaqi_audiogram_freq : List Nat := [250, 500, 1000, 2000, 4000, 6000]

/-- Model of the list comprehension
`[audiogram[i] for i in range(len(audiogram_frequencies))
    if audiogram_frequencies[i] in haaqi_audiogram_freq]`. -/
def compute_haaqi_filter (audiogram : List ℚ) (audiogram_frequencies : List Nat) :
    List ℚ :=
  ((List.range audiogram_frequencies.length).filter
      (fun i => haaqi_audiogram_freq.contains (audiogram_frequencies.getD i 0))).map
    (fun i => audiogram.getD i 0)

/-- Spec-side formulation of the audiogram filter ("the loss levels at positions
whose frequency is a member of the canonical set, in listener order"), stated by
pairing levels with frequencies; to be compared with `compute_haaqi_filter`. -/
def spec_filtered_levels (audiogram : List ℚ) (audiogram_frequencies : List Nat) :
    List ℚ :=
  ((audiogram.zip audiogram_frequencies).filter
      (fun p => haaqi_audiogram_freq.contains p.2)).map Prod.fst

/-- Model of `np.mean` on a list of Python floats (exact rational arithmetic). -/
def np_mean (xs : List ℚ) : ℚ := xs.sum / xs.length

/-! ### Pair enumeration (model of `make_song_listener_list`, lines 130-139) -/

/-- Fuel-indexed runner for Python extended slicing `xs[::k]` with positive step
`k`: keeps the elements at indices `0, k, 2k, ...`.  The fuel starts at
`xs.length`, which is enough since every step consumes at least one element. -/
def slice_step_go (k : Nat) : Nat → List α → List α
  | 0, _ => []
  | _ + 1, [] => []
  | n + 1, x :: xs => x :: slice_step_go k n (xs.drop (k - 1))

/-- Model of Python `xs[::k]` for step `k ≥ 1`. -/
def slice_step (k : Nat) (xs : List α) : List α :=
  slice_step_go k xs.length xs

/-- Model of `make_song_listener_list`: `itertools.product(songs, listeners.keys())`
as a song-major product (a Python dict iterates its keys in insertion order, so
the listener mapping is modelled by its ordered key list), then `[::15]` when
`small_test` is set. -/
def make_song_listener_list (songs : List String) (listeners : List String)
    (small_test : Bool) : List (String × String) :=
  let song_listener_pairs := songs.flatMap (fun s => listeners.map (fun l => (s, l)))
  if small_test then slice_step 15 song_listener_pairs else song_listener_pairs

/-! ### Results file (model of class `ResultsFile`, lines 20-92)

The CSV file is modelled as a list of rows; a row is a list of fields, where a
field is either literal text or the decimal serialization of a Python float
(modelled as the exact rational it denotes). -/

inductive CsvField where
  | str (s : String)
  | num (q : ℚ)
deriving DecidableEq

abbrev Row := List CsvField

def header_row : Row :=
  [CsvField.str "song", CsvField.str "listener", CsvField.str "score",
   CsvField.str "left_bass", CsvField.str "right_bass",
   CsvField.str "left_drums", CsvField.str "right_drums",
   CsvField.str "left_other", CsvField.str "right_other",
   CsvField.str "left_vocals", CsvField.str "right_vocals"]

/-- Model of `ResultsFile.write_header`: opening the file in mode `"w"`
truncates it, then the fixed header row is written. -/
def write_header (_file : List Row) : List Row := [header_row]

/-- Model of `ResultsFile.add_result`: opening the file in mode `"a"` and
writing one row appends that row; the `with` block closes (flushes) the file
before the method returns, so the new state is visible immediately. -/
def add_result (file : List Row) (listener song : String) (score : ℚ)
    (instruments_scores : List (String × ℚ)) : List Row :=
  file ++
    [[CsvField.str song, CsvField.str listener, CsvField.num score,
      CsvField.num ((instruments_scores.lookup "left_bass").getD 0),
      CsvField.num ((instruments_scores.lookup "right_bass").getD 0),
      CsvField.num ((instruments_scores.lookup "left_drums").getD 0),
      CsvField.num ((instruments_scores.lookup "right_drums").getD 0),
      CsvField.num ((instruments_scores.lookup "left_other").getD 0),
      CsvField.num ((instruments_scores.lookup "right_other").getD 0),
      CsvField.num ((instruments_scores.lookup "left_vocals").getD 0),
      CsvField.num ((instruments_scores.lookup "right_vocals").getD 0)]]

/-- One `add_result` call described as a record of its four arguments:
(listener, song, combined score, instrument scores). -/
abbrev ResultArgs := String × String × ℚ × List (String × ℚ)

/-- Replay a sequence of `add_result` calls against a file state. -/
def apply_results (file : List Row) : List ResultArgs → List Row
  | [] => file
  | (listener, song, score, iscores) :: rest =>
      apply_results (add_result file listener song score iscores) rest

/-- Spec-side description of the data row one `append` produces. -/
def row_of_record (r : ResultArgs) : Row :=
  [CsvField.str r.2.1, CsvField.str r.1, CsvField.num r.2.2.1,
   CsvField.num ((r.2.2.2.lookup "left_bass").getD 0),
   CsvField.num ((r.2.2.2.lookup "right_bass").getD 0),
   CsvField.num ((r.2.2.2.lookup "left_drums").getD 0),
   CsvField.num ((r.2.2.2.lookup "right_drums").getD 0),
   CsvField.num ((r.2.2.2.lookup "left_other").getD 0),
   CsvField.num ((r.2.2.2.lookup "right_other").getD 0),
   CsvField.num ((r.2.2.2.lookup "left_vocals").getD 0),
   CsvField.num ((r.2.2.2.lookup "right_vocals").getD 0)]


/-! ### Evaluation driver (model of `run_calculate_aq`, lines 142-227)

External collaborators (the file system, `scipy.io.wavfile.read`, the listener
catalog and the HAAQI metric `haaqi_v1`) are parameters of an environment
record.  WAV files are modelled as their decoded contents: a sample rate and an
integer sample array (stereo for references, mono for enhanced channels), as
`scipy.io.wavfile.read` returns for the 16-bit PCM files this recipe consumes.
The driver emits a trace of the observable side effects the claims speak about:
seeding the global RNG, calling the metric, and writing a results row. -/

structure AudiogramData where
  audiogram_levels_l : List ℚ
  audiogram_levels_r : List ℚ
  audiogram_cfs : List Nat

structure Config where
  nalr_fs : Nat
  set_random_seed : Bool
  small_test : Bool

structure Env where
  /-- The song catalog: rows of (`Track Name`, `Split`), in file order. -/
  catalog : List (String × String)
  /-- `listener_audiograms`: listener id to audiogram data, in key order. -/
  listeners : List (String × AudiogramData)
  /-- Reference WAV by (split dir, song, instrument): rate and stereo samples. -/
  ref_wav : String → String → String → Option (Nat × List (Int × Int))
  /-- Enhanced WAV by file name: rate and mono samples. -/
  enh_wav : String → Option (Nat × List Int)
  /-- `haaqi_v1` restricted to its consumed output: arguments are reference,
  reference_freq, processed, processed_freq, hearing_loss, equalisation. -/
  haaqi : List ℚ → Nat → List ℚ → Nat → List ℚ → Nat → ℚ

/-- Python exceptions the modelled code can raise. -/
inductive EvalError where
  | indexError
  | fileNotFound
  | keyError
  | assertionError
deriving DecidableEq

/-- Observable side effects of the driver. -/
inductive Event where
  | seedSet (song : String) (seed : Nat)
  | metricCall (song listener instrument channel : String)
      (reference processed hearing_loss : List ℚ)
  | rowWritten (song listener : String)
deriving DecidableEq

/-- Model of `compute_haaqi` (lines 95-120): filter the audiogram to the
canonical frequencies and call the metric with `equalisation=1`, passing the
shared sample rate for both signals. -/
def compute_haaqi (env : Env) (enh_signal ref_signal : List ℚ)
    (audiogram : List ℚ) (audiogram_frequencies : List Nat) (fs_signal : Nat) : ℚ :=
  env.haaqi ref_signal fs_signal enh_signal fs_signal
    (compute_haaqi_filter audiogram audiogram_frequencies) 1

/-- Model of `split_dir` selection (lines 178-180): first catalog row whose
`Track Name` equals the song decides; `"test"` selects `test`, anything else
leaves the initial `"train"`.  `none` models the `IndexError` raised by
`.tolist()[0]` when no row matches. -/
def get_split_dir (catalog : List (String × String)) (song : String) :
    Option String :=
  (((catalog.filter (fun r => r.1 = song)).map Prod.snd).head?).map
    (fun sp => if sp = "test" then "test" else "train")

/-- Model of one iteration of the instrument loop (lines 171-218) for a given
(song, listener, instrument): split lookup, reference load and normalization,
enhanced loads, the chained sample-rate assertion, then the two metric calls.
Returns the trace of metric calls and either (left score, right score) or the
exception raised. -/
def eval_instrument (env : Env) (cfg : Config) (song listener instrument : String) :
    List Event × Except EvalError (ℚ × ℚ) :=
  match get_split_dir env.catalog song with
  | none => ([], Except.error EvalError.indexError)
  | some split_dir =>
    match env.ref_wav split_dir song instrument with
    | none => ([], Except.error EvalError.fileNotFound)
    | some (sample_rate_reference_signal, raw_reference) =>
      let reference_signal : List (ℚ × ℚ) :=
        raw_reference.map (fun p => ((p.1 : ℚ) / 32768, (p.2 : ℚ) / 32768))
      let left_reference_signal := reference_signal.map Prod.fst
      let right_reference_signal := reference_signal.map Prod.snd
      match env.enh_wav (listener ++ "_" ++ song ++ "_left_" ++ instrument ++ ".wav") with
      | none => ([], Except.error EvalError.fileNotFound)
      | some (sample_rate_left_enhanced_signal, left_enhanced_signal) =>
        match env.enh_wav (listener ++ "_" ++ song ++ "_right_" ++ instrument ++ ".wav") with
        | none => ([], Except.error EvalError.fileNotFound)
        | some (sample_rate_right_enhanced_signal, right_enhanced_signal) =>
          if sample_rate_reference_signal = sample_rate_left_enhanced_signal ∧
              sample_rate_left_enhanced_signal = sample_rate_right_enhanced_signal ∧
              sample_rate_right_enhanced_signal = cfg.nalr_fs then
            match env.listeners.lookup listener with
            | none => ([], Except.error EvalError.keyError)
            | some ag =>
              let left_enh : List ℚ := left_enhanced_signal.map Int.cast
              let right_enh : List ℚ := right_enhanced_signal.map Int.cast
              let left_score := compute_haaqi env left_enh left_reference_signal
                ag.audiogram_levels_l ag.audiogram_cfs cfg.nalr_fs
              let right_score := compute_haaqi env right_enh right_reference_signal
                ag.audiogram_levels_r ag.audiogram_cfs cfg.nalr_fs
              ([Event.metricCall song listener instrument "left"
                  left_reference_signal left_enh
                  (compute_haaqi_filter ag.audiogram_levels_l ag.audiogram_cfs),
                Event.metricCall song listener instrument "right"
                  right_reference_signal right_enh
                  (compute_haaqi_filter ag.audiogram_levels_r ag.audiogram_cfs)],
               Except.ok (left_score, right_score))
          else ([], Except.error EvalError.assertionError)

/-- The instrument loop order of line 171. -/
def instruments : List String := ["drums", "bass", "other", "vocals"]

/-- Runner for the instrument loop: threads the accumulated trace and the
`scores` dict (as an insertion-ordered association list). -/
def eval_pair_go (env : Env) (cfg : Config) (song listener : String) :
    List String → List Event → List (String × ℚ) →
    List Event × Except EvalError (List (String × ℚ))
  | [], ev, sc => (ev, Except.ok sc)
  | instrument :: rest, ev, sc =>
    match eval_instrument env cfg song listener instrument with
    | (ev2, Except.error e) => (ev ++ ev2, Except.error e)
    | (ev2, Except.ok (l, r)) =>
        eval_pair_go env cfg song listener rest (ev ++ ev2)
          (sc ++ [("left_" ++ instrument, l), ("right_" ++ instrument, r)])

/-- Model of the body of the pair loop before aggregation (lines 170-218):
evaluate all four instruments, building the `scores` dict. -/
def eval_pair (env : Env) (cfg : Config) (song listener : String) :
    List Event × Except EvalError (List (String × ℚ)) :=
  eval_pair_go env cfg song listener instruments [] []

/-- Model of the pair loop (lines 164-227): per pair, optionally seed from the
song, evaluate the instruments, aggregate with `np.mean` over the dict values,
and append one results row.  A raised exception aborts the remaining pairs. -/
def run_loop (env : Env) (cfg : Config) :
    List (String × String) → List Row → List Event × Except EvalError (List Row)
  | [], file => ([], Except.ok file)
  | (song, listener) :: rest, file =>
    let seed_events : List Event :=
      if cfg.set_random_seed then [Event.seedSet song (set_song_seed song)] else []
    match eval_pair env cfg song listener with
    | (ev, Except.error e) => (seed_events ++ ev, Except.error e)
    | (ev, Except.ok scores) =>
      let combined_score := np_mean (scores.map Prod.snd)
      let file2 := add_result file listener song combined_score scores
      let (evr, r) := run_loop env cfg rest file2
      (seed_events ++ ev ++ [Event.rowWritten song listener] ++ evr, r)

/-- Model of `run_calculate_aq`: build the work list from the catalog's
`Track Name` column and the listener keys, write the header, run the loop. -/
def run_calculate_aq (env : Env) (cfg : Config) :
    List Event × Except EvalError (List Row) :=
  run_loop env cfg
    (make_song_listener_list (env.catalog.map Prod.fst)
      (env.listeners.map Prod.fst) cfg.small_test)
    (write_header [])

/-- Is this event a seeding of the global RNG (for any song)? -/
def is_seed_event : Event → Bool
  | Event.seedSet _ _ => true
  | _ => false

/-- Is this event a seeding of the global RNG derived from song `s`? -/
def is_seed_for (s : String) : Event → Bool
  | Event.seedSet s2 _ => s2 == s
  | _ => false

/-! ### Concrete environments used to instantiate the theorems -/

def demo_audiogram : AudiogramData := ⟨[], [], []⟩

def demo_cfg : Config := ⟨44100, true, false⟩

/-- One song, one listener, empty signals, all rates matching, metric `1`. -/
def env_ok : Env :=
  { catalog := [("song1", "train")]
    listeners := [("L1", demo_audiogram)]
    ref_wav := fun _ _ _ => some (44100, [])
    enh_wav := fun _ => some (44100, [])
    haaqi := fun _ _ _ _ _ _ => 1 }

/-- Like `env_ok`, but the enhanced files come back at 24000 Hz while the
reference and the configured rate are 44100 Hz. -/
def env_rate_mismatch : Env :=
  { catalog := [("song1", "train")]
    listeners := [("L1", demo_audiogram)]
    ref_wav := fun _ _ _ => some (44100, [])
    enh_wav := fun _ => some (24000, [])
    haaqi := fun _ _ _ _ _ _ => 1 }

/-- One song with two listeners, everything succeeding. -/
def env_two_listeners : Env :=
  { catalog := [("song1", "train")]
    listeners := [("L1", demo_audiogram), ("L2", demo_audiogram)]
    ref_wav := fun _ _ _ => some (44100, [])
    enh_wav := fun _ => some (44100, [])
    haaqi := fun _ _ _ _ _ _ => 1 }

/-- One song, one listener, with nonempty integer samples and an audiogram. -/
def env_samples : Env :=
  { catalog := [("song1", "train")]
    listeners := [("L1", ⟨[10, 20], [30, 40], [250, 8000]⟩)]
    ref_wav := fun _ _ _ => some (44100, [(3, -4)])
    enh_wav := fun _ => some (44100, [5])
    haaqi := fun _ _ _ _ _ _ => 1 }

/-! ### Sanity lemmas for the MD5 model -/

set_option maxRecDepth 100000

/-- The MD5 model agrees with the reference digests of `""` and `"abc"`
(RFC 1321 test vectors, written as `int(hexdigest, 16)`), and
`set_song_seed "song1"` agrees with the value Python's
`int(hashlib.md5(b"song1").hexdigest(), 16) % 10**8` produces. -/
theorem md5_test_vectors :
    md5Int [] = 281949768489412648962353822266799178366 ∧
    md5Int (utf8Encode "abc") = 191415658344158766168031473277922803570 ∧
    set_song_seed "song1" = 65544297 := by
  exact ⟨by decide, by decide, by decide⟩

/-! ### C1: seed derivation -/

/-- C1: for every song identifier string, `set_song_seed` (the MD5 content hash
of the UTF-8 encoding, read as an integer and reduced modulo `10^8`) is a pure
deterministic function of the string — equal inputs yield equal seeds — and the
resulting seed always lies in `[0, 10^8)`. -/
theorem set_song_seed_deterministic_bounded (s1 s2 : String) (h : s1 = s2) :
    set_song_seed s1 = set_song_seed s2 ∧ set_song_seed s1 < 10 ^ 8 := by
  subst h
  exact ⟨rfl, Nat.mod_lt _ (by norm_num)⟩

theorem set_song_seed_deterministic_bounded_witness :
    set_song_seed "song1" = set_song_seed "song1" ∧ set_song_seed "song1" < 10 ^ 8 :=
  set_song_seed_deterministic_bounded "song1" "song1" rfl

/-! ### C10: split-directory selection -/

/-- C10: the first catalog row whose `Track Name` matches the song decides the
split directory, later rows are ignored, and every `Split` value other than the
exact string `"test"` — malformed values included — selects `"train"`. -/
theorem get_split_dir_first_match (pre post : List (String × String))
    (song sp : String) (hpre : ∀ r ∈ pre, ¬r.1 = song) :
    get_split_dir (pre ++ (song, sp) :: post) song
        = some (if sp = "test" then "test" else "train") ∧
    (¬sp = "test" → get_split_dir (pre ++ (song, sp) :: post) song = some "train") := by
  have hfil : pre.filter (fun r => r.1 = song) = [] := by
    rw [List.filter_eq_nil_iff]
    intro a ha
    simpa using hpre a ha
  constructor
  · simp [get_split_dir, List.filter_append, hfil]
  · intro hsp
    simp [get_split_dir, List.filter_append, hfil, hsp]

theorem get_split_dir_first_match_witness :
    get_split_dir [("other", "test"), ("song1", "validation"), ("song1", "test")]
        "song1" = some "train" := by
  have h := (get_split_dir_first_match [("other", "test")] [("song1", "test")]
      "song1" "validation" (by decide)).2 (by decide)
  simpa using h

/-! ### C2: audiogram frequency filtering -/

theorem compute_haaqi_filter_eq_spec (fs : List Nat) :
    ∀ a : List ℚ, a.length = fs.length →
      compute_haaqi_filter a fs = spec_filtered_levels a fs := by
  induction fs with
  | nil =>
    intro a ha
    simp [compute_haaqi_filter, spec_filtered_levels]
  | cons x fs ih =>
    intro a ha
    match a with
    | [] => simp at ha
    | y :: a =>
      simp only [List.length_cons, Nat.succ.injEq] at ha
      have h1 : compute_haaqi_filter (y :: a) (x :: fs)
          = if x ∈ haaqi_audiogram_freq
            then y :: compute_haaqi_filter a fs
            else compute_haaqi_filter a fs := by
        simp only [compute_haaqi_filter, List.length_cons, List.range_succ_eq_map,
          List.filter_cons, List.getD_cons_zero, List.filter_map, List.map_map]
        by_cases hx : x ∈ haaqi_audiogram_freq
        · simp [hx, Function.comp_def]
        · simp [hx, Function.comp_def]
      have h2 : spec_filtered_levels (y :: a) (x :: fs)
          = if x ∈ haaqi_audiogram_freq
            then y :: spec_filtered_levels a fs
            else spec_filtered_levels a fs := by
        simp only [spec_filtered_levels, List.zip_cons_cons, List.filter_cons]
        by_cases hx : x ∈ haaqi_audiogram_freq
        · simp [hx]
        · simp [hx]
      rw [h1, h2, ih a ha]

/-- C2: for equal-length frequency and loss-level sequences, the audiogram
filter inside `compute_haaqi` returns exactly the loss levels at positions
whose frequency belongs to {250, 500, 1000, 2000, 4000, 6000} Hz, in listener
order; in particular frequencies `[125, 250, 500, 1000, 2000, 4000, 6000, 8000]`
with levels `[a, b, c, d, e, f, g, h]` yield `[b, c, d, e, f, g]`. -/
theorem compute_haaqi_filter_spec (fs : List Nat) (a : List ℚ)
    (h : a.length = fs.length) :
    compute_haaqi_filter a fs = spec_filtered_levels a fs ∧
    ∀ q1 q2 q3 q4 q5 q6 q7 q8 : ℚ,
      compute_haaqi_filter [q1, q2, q3, q4, q5, q6, q7, q8]
          [125, 250, 500, 1000, 2000, 4000, 6000, 8000]
        = [q2, q3, q4, q5, q6, q7] := by
  refine ⟨compute_haaqi_filter_eq_spec fs a h, ?_⟩
  intro q1 q2 q3 q4 q5 q6 q7 q8
  rfl

theorem compute_haaqi_filter_spec_witness :
    compute_haaqi_filter [1, 2, 3, 4, 5, 6, 7, 8]
        [125, 250, 500, 1000, 2000, 4000, 6000, 8000]
      = spec_filtered_levels [1, 2, 3, 4, 5, 6, 7, 8]
        [125, 250, 500, 1000, 2000, 4000, 6000, 8000] :=
  (compute_haaqi_filter_spec [125, 250, 500, 1000, 2000, 4000, 6000, 8000]
    [1, 2, 3, 4, 5, 6, 7, 8] rfl).1

/-! ### C4: pair enumeration -/

theorem flatMap_pairs_length (songs listeners : List String) :
    (songs.flatMap (fun s => listeners.map (fun l => (s, l)))).length
      = songs.length * listeners.length := by
  induction songs with
  | nil => simp
  | cons s songs ih => simp [ih, Nat.succ_mul, Nat.add_comm]

theorem flatMap_pairs_getElem (listeners : List String) :
    ∀ (songs : List String) (i j : Nat), i < songs.length → j < listeners.length →
      (songs.flatMap (fun s => listeners.map (fun l => (s, l))))[i * listeners.length + j]?
        = some (songs.getD i "", listeners.getD j "") := by
  intro songs
  induction songs with
  | nil => intro i j hi; simp at hi
  | cons s songs ih =>
    intro i j hi hj
    cases i with
    | zero =>
      simp only [Nat.zero_mul, Nat.zero_add]
      rw [List.flatMap_cons, List.getElem?_append_left (by simpa using hj)]
      simp [List.getElem?_eq_getElem hj]
    | succ i =>
      rw [List.flatMap_cons, List.getElem?_append_right (by simp [Nat.succ_mul]; omega)]
      have harith : (i + 1) * listeners.length + j - (listeners.map (fun l => (s, l))).length
          = i * listeners.length + j := by
        simp [Nat.succ_mul]
        omega
      rw [harith, ih i j (by simpa using hi) hj]
      simp

theorem slice_step_go_getElem (k : Nat) (hk : 1 ≤ k) :
    ∀ (n : Nat) (xs : List α), xs.length ≤ n →
      ∀ j, (slice_step_go k n xs)[j]? = xs[k * j]? := by
  intro n
  induction n with
  | zero =>
    intro xs hxs j
    match xs with
    | [] => simp [slice_step_go]
  | succ n ih =>
    intro xs hxs j
    match xs with
    | [] => simp [slice_step_go]
    | x :: xs =>
      cases j with
      | zero => simp [slice_step_go]
      | succ j =>
        have hlen : (xs.drop (k - 1)).length ≤ n := by
          simp only [List.length_drop]
          simp only [List.length_cons] at hxs
          omega
        have hmul : k * (j + 1) = (k - 1 + k * j) + 1 := by
          have h1 : k * (j + 1) = k * j + k := Nat.mul_succ k j
          rw [h1]
          omega
        calc (slice_step_go k (n + 1) (x :: xs))[j + 1]?
            = (slice_step_go k n (xs.drop (k - 1)))[j]? := by
              simp [slice_step_go]
          _ = (xs.drop (k - 1))[k * j]? := ih (xs.drop (k - 1)) hlen j
          _ = xs[k - 1 + k * j]? := List.getElem?_drop xs (k - 1) (k * j)
          _ = (x :: xs)[k * (j + 1)]? := by rw [hmul, List.getElem?_cons_succ]

theorem slice_step_getElem (k : Nat) (hk : 1 ≤ k) (xs : List α) (j : Nat) :
    (slice_step k xs)[j]? = xs[k * j]? :=
  slice_step_go_getElem k hk xs.length xs (Nat.le_refl _) j

/-- C4: `make_song_listener_list` is the song-major Cartesian product of the
song list and the listener key order (position `i * |listeners| + j` holds
`(songs[i], listeners[j])`, and the total length is the product of the
lengths); with `small_test` set it retains exactly the pairs at 0-indexed
positions `0, 15, 30, ...` of the full enumeration; empty inputs give an empty
result. -/
theorem make_song_listener_list_spec (songs listeners : List String) :
    (∀ i j, i < songs.length → j < listeners.length →
        (make_song_listener_list songs listeners false)[i * listeners.length + j]?
          = some (songs.getD i "", listeners.getD j "")) ∧
    (make_song_listener_list songs listeners false).length
        = songs.length * listeners.length ∧
    (∀ j, (make_song_listener_list songs listeners true)[j]?
        = (make_song_listener_list songs listeners false)[15 * j]?) ∧
    (∀ b, make_song_listener_list [] listeners b = []) ∧
    (∀ b, make_song_listener_list songs [] b = []) := by
  have hnil : ∀ ss : List String,
      ss.flatMap (fun s => ([] : List String).map (fun l => (s, l))) = [] := by
    intro ss
    induction ss with
    | nil => rfl
    | cons s ss ih => simp [ih]
  refine ⟨?_, ?_, ?_, ?_, ?_⟩
  · intro i j hi hj
    simpa [make_song_listener_list] using flatMap_pairs_getElem listeners songs i j hi hj
  · simpa [make_song_listener_list] using flatMap_pairs_length songs listeners
  · intro j
    simpa [make_song_listener_list] using
      slice_step_getElem 15 (by norm_num)
        (songs.flatMap (fun s => listeners.map (fun l => (s, l)))) j
  · intro b
    cases b <;> simp [make_song_listener_list, slice_step, slice_step_go]
  · intro b
    have h0 : make_song_listener_list songs [] b
        = if b then slice_step 15 [] else [] := by
      simp only [make_song_listener_list]
      rw [hnil songs]
    rw [h0]
    cases b <;> simp [slice_step, slice_step_go]

theorem make_song_listener_list_spec_witness :
    (make_song_listener_list ["A", "B"] ["L1", "L2"] false)[1 * 2 + 0]?
        = some ("B", "L1") ∧
    (make_song_listener_list ["A", "B"] ["L1", "L2"] false).length = 4 := by
  have h := make_song_listener_list_spec ["A", "B"] ["L1", "L2"]
  refine ⟨?_, by simpa using h.2.1⟩
  simpa using h.1 1 0 (by norm_num) (by norm_num)

/-! ### C6: results file round trip -/

theorem apply_results_append (args : List ResultArgs) :
    ∀ file : List Row, apply_results file args = file ++ args.map row_of_record := by
  induction args with
  | nil => intro file; simp [apply_results]
  | cons a rest ih =>
    intro file
    obtain ⟨l, s, sc, isc⟩ := a
    rw [List.map_cons]
    show apply_results (add_result file l s sc isc) rest = _
    rw [ih (add_result file l s sc isc)]
    simp [add_result, row_of_record]

/-- C6: starting from `write_header` (which truncates the file to the fixed
11-column header row), replaying any sequence of `add_result` calls yields the
header row followed by exactly one 11-field data row per call, in call order;
each `add_result` call appends exactly one row, and — the file being reopened,
written and closed within each call — the row is visible in the file state as
soon as the call returns. -/
theorem results_file_round_trip (f0 : List Row) (args : List ResultArgs) :
    apply_results (write_header f0) args = header_row :: args.map row_of_record ∧
    (apply_results (write_header f0) args).length = 1 + args.length ∧
    (∀ row ∈ apply_results (write_header f0) args, row.length = 11) ∧
    (∀ (file : List Row) (listener song : String) (score : ℚ)
        (iscores : List (String × ℚ)),
        add_result file listener song score iscores
          = file ++ [row_of_record (listener, song, score, iscores)]) := by
  have hmain : apply_results (write_header f0) args
      = header_row :: args.map row_of_record := by
    rw [apply_results_append args (write_header f0)]
    rfl
  refine ⟨hmain, ?_, ?_, ?_⟩
  · rw [hmain]
    simp [Nat.add_comm]
  · intro row hrow
    rw [hmain] at hrow
    rcases List.mem_cons.mp hrow with h | h
    · rw [h]; rfl
    · obtain ⟨r, _, hr⟩ := List.mem_map.mp h
      rw [← hr]
      obtain ⟨l, s, sc, isc⟩ := r
      rfl
  · intro file listener song score iscores
    rfl

theorem results_file_round_trip_witness :
    apply_results (write_header []) [("L1", "song1", 1, []), ("L2", "song2", 2, [])]
      = header_row :: [row_of_record ("L1", "song1", 1, []),
          row_of_record ("L2", "song2", 2, [])] :=
  (results_file_round_trip []
    [("L1", "song1", 1, []), ("L2", "song2", 2, [])]).1

/-! ### C3: score aggregation -/

theorem eval_pair_go_ok_length (env : Env) (cfg : Config) (song listener : String) :
    ∀ (insts : List String) (ev : List Event) (sc : List (String × ℚ))
      (ev2 : List Event) (sc2 : List (String × ℚ)),
      eval_pair_go env cfg song listener insts ev sc = (ev2, Except.ok sc2) →
      sc2.length = sc.length + 2 * insts.length := by
  intro insts
  induction insts with
  | nil =>
    intro ev sc ev2 sc2 h
    simp only [eval_pair_go, Prod.mk.injEq, Except.ok.injEq] at h
    obtain ⟨-, h⟩ := h
    simp [← h]
  | cons i rest ih =>
    intro ev sc ev2 sc2 h
    simp only [eval_pair_go] at h
    rcases hi : eval_instrument env cfg song listener i with ⟨evi, ri⟩
    rw [hi] at h
    cases ri with
    | error e => simp at h
    | ok lr =>
      obtain ⟨l, r⟩ := lr
      have := ih (ev ++ evi) (sc ++ [("left_" ++ i, l), ("right_" ++ i, r)]) ev2 sc2 h
      simp only [List.length_append, List.length_cons, List.length_nil] at this
      simp only [List.length_cons, this]
      omega

/-- C3: the combined score the driver writes is the unweighted arithmetic mean
of the 8 per-(instrument, channel) scores: `np.mean` of 8 values is their sum
divided by 8 (so `[1..8]` gives `4.5`), a successful pair evaluation produces
exactly 8 scores, and the row appended for the pair carries `np_mean` of those
scores as its combined score. -/
theorem combined_score_is_mean
    (v1 v2 v3 v4 v5 v6 v7 v8 : ℚ)
    (env : Env) (cfg : Config) (song listener : String) (file : List Row)
    (ev : List Event) (scores : List (String × ℚ))
    (hok : eval_pair env cfg song listener = (ev, Except.ok scores)) :
    np_mean [v1, v2, v3, v4, v5, v6, v7, v8]
        = (v1 + v2 + v3 + v4 + v5 + v6 + v7 + v8) / 8 ∧
    np_mean [1, 2, 3, 4, 5, 6, 7, 8] = 4.5 ∧
    scores.length = 8 ∧
    (run_loop env cfg [(song, listener)] file).2
      = Except.ok (add_result file listener song
          (np_mean (scores.map Prod.snd)) scores) := by
  refine ⟨?_, ?_, ?_, ?_⟩
  · simp only [np_mean, List.sum_cons, List.sum_nil, List.length_cons, List.length_nil]
    norm_num
    ring
  · norm_num [np_mean]
  · have h := eval_pair_go_ok_length env cfg song listener instruments [] [] ev scores hok
    simpa [instruments] using h
  · have hbase : run_loop env cfg []
        (add_result file listener song (np_mean (scores.map Prod.snd)) scores)
        = ([], Except.ok (add_result file listener song
            (np_mean (scores.map Prod.snd)) scores)) := rfl
    simp [run_loop, hok, hbase]

theorem combined_score_is_mean_witness :
    np_mean [1, 2, 3, 4, 5, 6, 7, 8] = 4.5 ∧
    (run_loop env_ok demo_cfg [("song1", "L1")] (write_header [])).2
      = Except.ok (add_result (write_header []) "L1" "song1"
          (np_mean ([("left_drums", (1 : ℚ)), ("right_drums", 1), ("left_bass", 1),
              ("right_bass", 1), ("left_other", 1), ("right_other", 1),
              ("left_vocals", 1), ("right_vocals", 1)].map Prod.snd))
          [("left_drums", 1), ("right_drums", 1), ("left_bass", 1),
           ("right_bass", 1), ("left_other", 1), ("right_other", 1),
           ("left_vocals", 1), ("right_vocals", 1)]) := by
  have h := combined_score_is_mean 1 2 3 4 5 6 7 8 env_ok demo_cfg "song1" "L1"
      (write_header []) (eval_pair env_ok demo_cfg "song1" "L1").1
      [("left_drums", 1), ("right_drums", 1), ("left_bass", 1),
       ("right_bass", 1), ("left_other", 1), ("right_other", 1),
       ("left_vocals", 1), ("right_vocals", 1)] rfl
  exact ⟨h.2.1, h.2.2.2⟩

/-! ### Trace lemmas for the fatal-path and seeding claims -/

theorem eval_instrument_events (env : Env) (cfg : Config)
    (song listener instrument : String) :
    ∀ e ∈ (eval_instrument env cfg song listener instrument).1,
      ∃ channel reference processed hearing,
        e = Event.metricCall song listener instrument channel reference processed hearing := by
  intro e he
  unfold eval_instrument at he
  repeat' split at he
  all_goals simp only [List.mem_cons, List.not_mem_nil, or_false] at he
  rcases he with h | h
  · exact ⟨_, _, _, _, h⟩
  · exact ⟨_, _, _, _, h⟩

theorem eval_pair_go_events (env : Env) (cfg : Config) (song listener : String) :
    ∀ (insts : List String) (ev : List Event) (sc : List (String × ℚ)) (e : Event),
      e ∈ (eval_pair_go env cfg song listener insts ev sc).1 →
      e ∈ ev ∨ ∃ i ∈ insts, e ∈ (eval_instrument env cfg song listener i).1 := by
  intro insts
  induction insts with
  | nil =>
    intro ev sc e he
    simp only [eval_pair_go] at he
    exact Or.inl he
  | cons i rest ih =>
    intro ev sc e he
    simp only [eval_pair_go] at he
    rcases hi : eval_instrument env cfg song listener i with ⟨evi, ri⟩
    rw [hi] at he
    cases ri with
    | error err =>
      simp only [List.mem_append] at he
      rcases he with h | h
      · exact Or.inl h
      · refine Or.inr ⟨i, List.mem_cons_self i rest, ?_⟩
        rw [hi]
        exact h
    | ok lr =>
      obtain ⟨l, r⟩ := lr
      rcases ih (ev ++ evi) (sc ++ [("left_" ++ i, l), ("right_" ++ i, r)]) e he with
        h | ⟨i2, hi2, he2⟩
      · rcases List.mem_append.mp h with h2 | h2
        · exact Or.inl h2
        · refine Or.inr ⟨i, List.mem_cons_self i rest, ?_⟩
          rw [hi]
          exact h2
      · exact Or.inr ⟨i2, List.mem_cons_of_mem i hi2, he2⟩

theorem eval_pair_go_error (env : Env) (cfg : Config) (song listener : String) :
    ∀ (insts : List String) (ev : List Event) (sc : List (String × ℚ)),
      (∃ i ∈ insts, ∃ err, (eval_instrument env cfg song listener i).2
          = Except.error err) →
      ∃ err2, (eval_pair_go env cfg song listener insts ev sc).2
          = Except.error err2 := by
  intro insts
  induction insts with
  | nil =>
    intro ev sc h
    obtain ⟨i, hi, -⟩ := h
    exact absurd hi (List.not_mem_nil i)
  | cons i rest ih =>
    intro ev sc h
    simp only [eval_pair_go]
    rcases hi : eval_instrument env cfg song listener i with ⟨evi, ri⟩
    cases ri with
    | error err => exact ⟨err, rfl⟩
    | ok lr =>
      obtain ⟨l, r⟩ := lr
      obtain ⟨i2, hi2, err2, herr2⟩ := h
      rcases List.mem_cons.mp hi2 with h2 | h2
      · subst h2
        rw [hi] at herr2
        simp at herr2
      · exact ih (ev ++ evi) (sc ++ [("left_" ++ i, l), ("right_" ++ i, r)])
          ⟨i2, h2, err2, herr2⟩

theorem run_loop_single_error (env : Env) (cfg : Config) (song listener : String)
    (file : List Row) (err : EvalError)
    (h : (eval_pair env cfg song listener).2 = Except.error err) :
    run_loop env cfg [(song, listener)] file
      = ((if cfg.set_random_seed then [Event.seedSet song (set_song_seed song)] else [])
          ++ (eval_pair env cfg song listener).1, Except.error err) := by
  rcases hp : eval_pair env cfg song listener with ⟨ev, r⟩
  rw [hp] at h
  simp only at h
  subst h
  simp [run_loop, hp]

/-- C5: when the reference, left-enhanced and right-enhanced sample rates and
the configured rate are not all identical for a (song, listener, instrument),
the chained assertion raises `AssertionError` before any metric call for that
instrument happens (the instrument's trace is empty), the evaluation of the
pair aborts with an exception, and no row is written for that pair. -/
theorem sample_rate_mismatch_fatal
    (env : Env) (cfg : Config) (song listener instrument : String)
    (split_dir : String) (hsplit : get_split_dir env.catalog song = some split_dir)
    (r1 : Nat) (refsig : List (Int × Int))
    (href : env.ref_wav split_dir song instrument = some (r1, refsig))
    (r2 : Nat) (lsig : List Int)
    (hlw : env.enh_wav (listener ++ "_" ++ song ++ "_left_" ++ instrument ++ ".wav")
        = some (r2, lsig))
    (r3 : Nat) (rsig : List Int)
    (hrw : env.enh_wav (listener ++ "_" ++ song ++ "_right_" ++ instrument ++ ".wav")
        = some (r3, rsig))
    (hmis : ¬(r1 = r2 ∧ r2 = r3 ∧ r3 = cfg.nalr_fs))
    (hins : instrument ∈ instruments) (file : List Row) :
    eval_instrument env cfg song listener instrument
        = ([], Except.error EvalError.assertionError) ∧
    (∃ err, (run_loop env cfg [(song, listener)] file).2 = Except.error err) ∧
    (∀ s2 l2, Event.rowWritten s2 l2 ∉ (run_loop env cfg [(song, listener)] file).1) ∧
    (∀ ch ref proc hl, Event.metricCall song listener instrument ch ref proc hl
        ∉ (run_loop env cfg [(song, listener)] file).1) := by
  have h1 : eval_instrument env cfg song listener instrument
      = ([], Except.error EvalError.assertionError) := by
    unfold eval_instrument
    rw [hsplit]
    simp only [href, hlw, hrw]
    rw [if_neg hmis]
  obtain ⟨err, herr⟩ : ∃ err, (eval_pair env cfg song listener).2 = Except.error err :=
    eval_pair_go_error env cfg song listener instruments [] []
      ⟨instrument, hins, EvalError.assertionError, by rw [h1]⟩
  have hrun := run_loop_single_error env cfg song listener file err herr
  have hsplit_trace : ∀ e, e ∈ (run_loop env cfg [(song, listener)] file).1 →
      e = Event.seedSet song (set_song_seed song) ∨
      ∃ i ∈ instruments, e ∈ (eval_instrument env cfg song listener i).1 := by
    intro e hmem
    rw [hrun] at hmem
    rcases List.mem_append.mp hmem with hm | hm
    · by_cases hcfg : cfg.set_random_seed
      · simp only [hcfg, if_true, List.mem_cons, List.not_mem_nil, or_false] at hm
        exact Or.inl hm
      · simp [hcfg] at hm
    · exact (eval_pair_go_events env cfg song listener instruments [] [] e hm).imp_left
        (fun h => absurd h (List.not_mem_nil e))
  refine ⟨h1, ⟨err, by rw [hrun]⟩, ?_, ?_⟩
  · intro s2 l2 hmem
    rcases hsplit_trace _ hmem with h | ⟨i, -, hei⟩
    · exact Event.noConfusion h
    · obtain ⟨ch, ref, proc, hl, hcall⟩ :=
        eval_instrument_events env cfg song listener i _ hei
      exact Event.noConfusion hcall
  · intro ch ref proc hl hmem
    rcases hsplit_trace _ hmem with h | ⟨i, -, hei⟩
    · exact Event.noConfusion h
    · obtain ⟨ch2, ref2, proc2, hl2, hcall⟩ :=
        eval_instrument_events env cfg song listener i _ hei
      have hieq : i = instrument := by
        injection hcall with _ _ h3
        exact h3.symm
      rw [hieq, h1] at hei
      exact absurd hei (List.not_mem_nil _)

theorem sample_rate_mismatch_fatal_witness :
    eval_instrument env_rate_mismatch demo_cfg "song1" "L1" "drums"
        = ([], Except.error EvalError.assertionError) ∧
    (∃ err, (run_loop env_rate_mismatch demo_cfg [("song1", "L1")]
        (write_header [])).2 = Except.error err) := by
  have h := sample_rate_mismatch_fatal env_rate_mismatch demo_cfg "song1" "L1" "drums"
    "train" rfl 44100 [] rfl 24000 [] rfl 24000 [] rfl (by decide) (by decide)
    (write_header [])
  exact ⟨h.1, h.2.1⟩

theorem run_loop_single_ok (env : Env) (cfg : Config) (song listener : String)
    (file : List Row) (scores : List (String × ℚ))
    (h : (eval_pair env cfg song listener).2 = Except.ok scores) :
    run_loop env cfg [(song, listener)] file
      = ((if cfg.set_random_seed then [Event.seedSet song (set_song_seed song)] else [])
          ++ (eval_pair env cfg song listener).1 ++ [Event.rowWritten song listener],
         Except.ok (add_result file listener song
           (np_mean (scores.map Prod.snd)) scores)) := by
  rcases hp : eval_pair env cfg song listener with ⟨ev, r⟩
  rw [hp] at h
  simp only at h
  subst h
  have hbase : run_loop env cfg []
      (add_result file listener song (np_mean (scores.map Prod.snd)) scores)
      = ([], Except.ok (add_result file listener song
          (np_mean (scores.map Prod.snd)) scores)) := rfl
  simp [run_loop, hp, hbase]

/-- C7 counterexample: with deterministic reseeding enabled, one song
(`"song1"`) and two listeners, the full run applies the song-derived seed twice
for that song — once per (song, listener) pair — refuting "applied exactly once
per song ... not re-applied per (song, listener) pair". -/
theorem seed_applied_twice_counterexample :
    (run_calculate_aq env_two_listeners demo_cfg).1.countP (is_seed_for "song1")
      = 2 := by
  rfl

/-- C7 amended: when deterministic reseeding is enabled, the seed derived from
the song is applied exactly once per (song, listener) pair — for a song with
several listeners it is re-applied, with the same value, at the start of each
of its pairs — and within a pair it is applied before any instrument or channel
is evaluated and never re-applied per channel. -/
theorem seed_once_per_pair (env : Env) (cfg : Config) (song listener : String)
    (file : List Row) (hseed : cfg.set_random_seed = true) :
    (run_loop env cfg [(song, listener)] file).1.countP is_seed_event = 1 ∧
    ∃ rest, (run_loop env cfg [(song, listener)] file).1
        = Event.seedSet song (set_song_seed song)
            :: ((eval_pair env cfg song listener).1 ++ rest) := by
  have hnos : ∀ e ∈ (eval_pair env cfg song listener).1, ¬(is_seed_event e = true) := by
    intro e he
    rcases eval_pair_go_events env cfg song listener instruments [] [] e he with
      h | ⟨i, -, hei⟩
    · exact absurd h (List.not_mem_nil e)
    · obtain ⟨ch, ref, proc, hl, hc⟩ :=
        eval_instrument_events env cfg song listener i e hei
      rw [hc]
      simp [is_seed_event]
  have hzero : (eval_pair env cfg song listener).1.countP is_seed_event = 0 :=
    List.countP_eq_zero.mpr hnos
  rcases hr : (eval_pair env cfg song listener).2 with err | scores
  · have hrun := run_loop_single_error env cfg song listener file err hr
    rw [hrun]
    constructor
    · simp [hseed, List.countP_append, hzero, List.countP_cons, is_seed_event]
    · exact ⟨[], by simp [hseed]⟩
  · have hrun := run_loop_single_ok env cfg song listener file scores hr
    rw [hrun]
    constructor
    · simp [hseed, List.countP_append, hzero, List.countP_cons, is_seed_event]
    · exact ⟨[Event.rowWritten song listener], by simp [hseed]⟩

theorem seed_once_per_pair_witness :
    (run_loop env_ok demo_cfg [("song1", "L1")] (write_header [])).1.countP
        is_seed_event = 1 ∧
    ∃ rest, (run_loop env_ok demo_cfg [("song1", "L1")] (write_header [])).1
        = Event.seedSet "song1" (set_song_seed "song1")
            :: ((eval_pair env_ok demo_cfg "song1" "L1").1 ++ rest) :=
  seed_once_per_pair env_ok demo_cfg "song1" "L1" (write_header []) rfl

/-! ### C8, C9: amplitude scaling of the signals passed to the metric -/

theorem eval_instrument_ok_trace
    (env : Env) (cfg : Config) (song listener instrument : String)
    (split_dir : String) (hsplit : get_split_dir env.catalog song = some split_dir)
    (fs : Nat) (refsig : List (Int × Int))
    (href : env.ref_wav split_dir song instrument = some (fs, refsig))
    (lsig : List Int)
    (hlw : env.enh_wav (listener ++ "_" ++ song ++ "_left_" ++ instrument ++ ".wav")
        = some (fs, lsig))
    (rsig : List Int)
    (hrw : env.enh_wav (listener ++ "_" ++ song ++ "_right_" ++ instrument ++ ".wav")
        = some (fs, rsig))
    (hfs : cfg.nalr_fs = fs)
    (ag : AudiogramData) (hag : env.listeners.lookup listener = some ag) :
    eval_instrument env cfg song listener instrument
      = ([Event.metricCall song listener instrument "left"
            (refsig.map (fun p => (p.1 : ℚ) / 32768)) (lsig.map Int.cast)
            (compute_haaqi_filter ag.audiogram_levels_l ag.audiogram_cfs),
          Event.metricCall song listener instrument "right"
            (refsig.map (fun p => (p.2 : ℚ) / 32768)) (rsig.map Int.cast)
            (compute_haaqi_filter ag.audiogram_levels_r ag.audiogram_cfs)],
         Except.ok
           (env.haaqi (refsig.map (fun p => (p.1 : ℚ) / 32768)) fs
              (lsig.map Int.cast) fs
              (compute_haaqi_filter ag.audiogram_levels_l ag.audiogram_cfs) 1,
            env.haaqi (refsig.map (fun p => (p.2 : ℚ) / 32768)) fs
              (rsig.map Int.cast) fs
              (compute_haaqi_filter ag.audiogram_levels_r ag.audiogram_cfs) 1)) := by
  unfold eval_instrument
  rw [hsplit]
  simp only [href, hlw, hrw]
  rw [if_pos (by simp [hfs] : _ ∧ _ ∧ _)]
  simp only [hag, compute_haaqi, hfs, List.map_map, Function.comp_def]

/-- C8: on the success path, the reference stem's integer samples are divided
by 32768 — the full-scale magnitude of the 16-bit PCM encoding in which the
stems are stored — and only then split into left/right channels, and it is
these normalized channels that reach the metric as its reference argument. -/
theorem reference_normalized_before_metric
    (env : Env) (cfg : Config) (song listener instrument : String)
    (split_dir : String) (hsplit : get_split_dir env.catalog song = some split_dir)
    (fs : Nat) (refsig : List (Int × Int))
    (href : env.ref_wav split_dir song instrument = some (fs, refsig))
    (lsig : List Int)
    (hlw : env.enh_wav (listener ++ "_" ++ song ++ "_left_" ++ instrument ++ ".wav")
        = some (fs, lsig))
    (rsig : List Int)
    (hrw : env.enh_wav (listener ++ "_" ++ song ++ "_right_" ++ instrument ++ ".wav")
        = some (fs, rsig))
    (hfs : cfg.nalr_fs = fs)
    (ag : AudiogramData) (hag : env.listeners.lookup listener = some ag) :
    (eval_instrument env cfg song listener instrument).1
      = [Event.metricCall song listener instrument "left"
           (refsig.map (fun p => (p.1 : ℚ) / 32768)) (lsig.map Int.cast)
           (compute_haaqi_filter ag.audiogram_levels_l ag.audiogram_cfs),
         Event.metricCall song listener instrument "right"
           (refsig.map (fun p => (p.2 : ℚ) / 32768)) (rsig.map Int.cast)
           (compute_haaqi_filter ag.audiogram_levels_r ag.audiogram_cfs)] := by
  rw [eval_instrument_ok_trace env cfg song listener instrument split_dir hsplit
    fs refsig href lsig hlw rsig hrw hfs ag hag]

theorem reference_normalized_before_metric_witness :
    (eval_instrument env_samples demo_cfg "song1" "L1" "drums").1
      = [Event.metricCall "song1" "L1" "drums" "left"
           ([((3 : Int), (-4 : Int))].map (fun p => (p.1 : ℚ) / 32768))
           ([(5 : Int)].map Int.cast)
           (compute_haaqi_filter [10, 20] [250, 8000]),
         Event.metricCall "song1" "L1" "drums" "right"
           ([((3 : Int), (-4 : Int))].map (fun p => (p.2 : ℚ) / 32768))
           ([(5 : Int)].map Int.cast)
           (compute_haaqi_filter [30, 40] [250, 8000])] :=
  reference_normalized_before_metric env_samples demo_cfg "song1" "L1" "drums"
    "train" rfl 44100 [(3, -4)] rfl [5] rfl [5] rfl rfl
    ⟨[10, 20], [30, 40], [250, 8000]⟩ rfl

/-- C9: the enhanced channels reach the metric exactly as decoded — a plain
cast of the integer samples, with no division — while the reference is divided
by 32768; consequently, any nonzero integer sample value is passed on a
different amplitude scale in the enhanced signal than it would be in the
reference signal. -/
theorem enhanced_signal_not_normalized
    (env : Env) (cfg : Config) (song listener instrument : String)
    (split_dir : String) (hsplit : get_split_dir env.catalog song = some split_dir)
    (fs : Nat) (refsig : List (Int × Int))
    (href : env.ref_wav split_dir song instrument = some (fs, refsig))
    (lsig : List Int)
    (hlw : env.enh_wav (listener ++ "_" ++ song ++ "_left_" ++ instrument ++ ".wav")
        = some (fs, lsig))
    (rsig : List Int)
    (hrw : env.enh_wav (listener ++ "_" ++ song ++ "_right_" ++ instrument ++ ".wav")
        = some (fs, rsig))
    (hfs : cfg.nalr_fs = fs)
    (ag : AudiogramData) (hag : env.listeners.lookup listener = some ag) :
    ((eval_instrument env cfg song listener instrument).1
      = [Event.metricCall song listener instrument "left"
           (refsig.map (fun p => (p.1 : ℚ) / 32768)) (lsig.map Int.cast)
           (compute_haaqi_filter ag.audiogram_levels_l ag.audiogram_cfs),
         Event.metricCall song listener instrument "right"
           (refsig.map (fun p => (p.2 : ℚ) / 32768)) (rsig.map Int.cast)
           (compute_haaqi_filter ag.audiogram_levels_r ag.audiogram_cfs)]) ∧
    ∀ v : Int, v ≠ 0 → (v : ℚ) ≠ (v : ℚ) / 32768 := by
  constructor
  · rw [eval_instrument_ok_trace env cfg song listener instrument split_dir hsplit
      fs refsig href lsig hlw rsig hrw hfs ag hag]
  · intro v hv h
    rw [eq_div_iff (by norm_num : (32768 : ℚ) ≠ 0)] at h
    have hz : (v : ℚ) = 0 := by linarith
    exact hv (by exact_mod_cast hz)

theorem enhanced_signal_not_normalized_witness :
    ((eval_instrument env_samples demo_cfg "song1" "L1" "bass").1
      = [Event.metricCall "song1" "L1" "bass" "left"
           ([((3 : Int), (-4 : Int))].map (fun p => (p.1 : ℚ) / 32768))
           ([(5 : Int)].map Int.cast)
           (compute_haaqi_filter [10, 20] [250, 8000]),
         Event.metricCall "song1" "L1" "bass" "right"
           ([((3 : Int), (-4 : Int))].map (fun p => (p.2 : ℚ) / 32768))
           ([(5 : Int)].map Int.cast)
           (compute_haaqi_filter [30, 40] [250, 8000])]) ∧
    ((5 : Int) : ℚ) ≠ ((5 : Int) : ℚ) / 32768 := by
  have h := enhanced_signal_not_normalized env_samples demo_cfg "song1" "L1" "bass"
    "train" rfl 44100 [(3, -4)] rfl [5] rfl [5] rfl rfl
    ⟨[10, 20], [30, 40], [250, 8000]⟩ rfl
  exact ⟨h.1, h.2 5 (by norm_num)⟩
